import Mathlib

/-!
Verification of the AD Knowledge Portal preliminary data-processing script
(`portal_data_info.py`) against its specification.

The script is a single-pass aggregation pipeline over two CSV tables (a
file-metadata catalog and a download-event log).  This file shallowly embeds
the script's functions over plain Lean data:

  - a parsed CSV table is a `ParsedTable`: header names plus rows of
    `Option String` cells, `none` standing for a pandas `NaN` (a missing or
    NA-marked cell after `pd.read_csv(..., dtype=str)`);
  - Python dicts used as counters are insertion-ordered association lists
    `List (String × Nat)`, matching CPython's insertion-ordered `dict`;
  - `sorted(d.items(), key=lambda x: x[1], reverse=True)` is the stable
    descending insertion sort `sortDesc` (any stable sort is input/output
    equivalent to Python's Timsort);
  - `csv.DictWriter` output is a list of rows of cells (`List (List String)`);
    `dictWriterRow` reproduces `DictWriter`'s `rowdict.get(f, "")` per
    fieldname, including its behaviour on duplicated fieldnames;
  - `pathlib.Path(s).suffix` is `pathSuffix` (POSIX flavour, CPython 3.x:
    final path component, then `name[i:]` for `i = name.rfind('.')` when
    `0 < i < len(name) - 1`, else the empty string);
  - Python's substring test `a in b` on strings is `pyInStr`;
  - `list(set(xs).intersection(ys))`, whose element order is unspecified,
    is modelled by passing an explicit enumeration list to
    `create_intersection_list_ordered`; the canonical `create_intersection_list`
    fixes one enumeration, and order-independence is proved separately.

Functions keep the Python source's names.
-/

/-! ## Generic machinery: counters, stable descending sort, strings -/

/-- One step of the Python counting idiom over an insertion-ordered dict:
`if k in d: d[k] += v else: ...` updates the entry in place. -/
def bumpBy (d : List (String × Nat)) (k : String) (v : Nat) : List (String × Nat) :=
  d.map (fun p => if p.1 = k then (p.1, p.2 + v) else p)

/-- The tallying idiom `if k in d: d[k] += 1 elif k not in d: d[k] = 1`:
bump an existing key by one, or append a fresh key at the end (CPython dicts
keep insertion order, so fresh keys go last). -/
def bumpOrInsert (d : List (String × Nat)) (k : String) : List (String × Nat) :=
  if k ∈ d.map Prod.fst then bumpBy d k 1 else d ++ [(k, 1)]

/-- A whole counting loop: the insertion-ordered key → count dict built from
a list of keys. -/
def tally (xs : List String) : List (String × Nat) :=
  xs.foldl bumpOrInsert []

/-- Insert an entry into a count-descending list, after every entry of
greater or equal count: the insertion step of a stable descending sort. -/
def insertDesc (p : String × Nat) : List (String × Nat) → List (String × Nat)
  | [] => [p]
  | q :: qs => if q.2 ≤ p.2 then p :: q :: qs else q :: insertDesc p qs

/-- The embedding of `sorted(d.items(), key=lambda x: x[1], reverse=True)`:
a stable sort by count descending (equal counts keep their relative order). -/
def sortDesc : List (String × Nat) → List (String × Nat)
  | [] => []
  | x :: xs => insertDesc x (sortDesc xs)

/-- Does `b` start with `a`?  Helper for the substring test. -/
def listStarts : List Char → List Char → Bool
  | [], _ => true
  | _ :: _, [] => false
  | a :: as, b :: bs => a == b && listStarts as bs

/-- Is `a` a contiguous sublist of `b`?  Helper for the substring test. -/
def isSubOf (a : List Char) : List Char → Bool
  | [] => a == []
  | b :: bs => listStarts a (b :: bs) || isSubOf a bs

/-- Python's `needle in hay` on strings: substring containment (the empty
string is contained in everything). -/
def pyInStr (needle hay : String) : Bool :=
  isSubOf needle.toList hay.toList

/-- Split a character list at `'/'` (accumulator holds the current chunk
reversed), as `str.split('/')` does: `pathlib`'s POSIX path parsing splits
on this separator. -/
def splitSlash : List Char → List Char → List (List Char)
  | [], acc => [acc.reverse]
  | c :: cs, acc => if c == '/' then acc.reverse :: splitSlash cs [] else splitSlash cs (c :: acc)

/-- The characters of `pathlib.PurePosixPath(s).name`: split on `'/'`, drop
empty chunks and `"."` chunks, take the last remaining chunk (or nothing). -/
def pathlibNameChars (s : String) : List Char :=
  ((splitSlash s.toList []).filter (fun p => !(p == [] || p == ['.']))).getLastD []

/-- Index of the last `'.'` in a character list (`str.rfind('.')` when it
finds one). -/
def lastDotIdx : List Char → Option Nat
  | [] => none
  | c :: cs =>
    match lastDotIdx cs with
    | some i => some (i + 1)
    | none => if c == '.' then some 0 else none

/-- The embedding of `pathlib.Path(s).suffix` (CPython 3.x, POSIX): with
`name` the final path component and `i = name.rfind('.')`, return `name[i:]`
when `0 < i < len(name) - 1`, else the empty string. -/
def pathSuffix (s : String) : String :=
  let name := pathlibNameChars s
  match lastDotIdx name with
  | some i => if 0 < i ∧ i + 1 < name.length then String.mk (name.drop i) else ""
  | none => ""

/-- First value for a key in an association list (`d[k]` read through the
first matching entry; entries built here always have unique keys). -/
def alookup (d : List (String × Nat)) (k : String) : Option Nat :=
  (d.find? (fun p => p.1 == k)).map Prod.snd

/-! ## The tabular reader (Section 1 and 2 of the script) -/

/-- A parsed delimited table as `pd.read_csv(filename, dtype=str)` yields it:
the header names, and per row one `Option String` cell per column, `none`
for a missing or NA-marked cell (pandas `NaN`). -/
structure ParsedTable where
  headers : List String
  rows : List (List (Option String))

/-- Cell of a row under `df.reindex(columns = output_headers)`: the cell of
the first source column with the requested name, or `none` (an all-`NaN`
synthesized column) when no source column has it. -/
def reindexCell (headers : List String) (row : List (Option String)) (h : String) : Option String :=
  match headers.findIdx? (fun x => x == h) with
  | some i => row.getD i none
  | none => none

/-- The per-cell normalization `if pd.isnull(cell): cell = str(cell)`:
`str(float('nan'))` is the literal string `"nan"`. -/
def normalizeCell : Option String → String
  | none => "nan"
  | some s => s

/-- The common body of both readers: reindex each row to the requested
columns in the requested order and normalize missing cells, keeping every
row in its original position. -/
def readWithHeaders (output_headers : List String) (t : ParsedTable) : List (List String) :=
  t.rows.map (fun row => output_headers.map (fun h => normalizeCell (reindexCell t.headers row h)))

/-- `read_file_info_csv_with_pandas`: project the file-metadata table to
`fileFormat, name, id, study`. -/
def read_file_info_csv_with_pandas (t : ParsedTable) : List (List String) :=
  readWithHeaders ["fileFormat", "name", "id", "study"] t

/-- `read_download_info_csv_with_pandas`: project the download table to
`id, name, study`. -/
def read_download_info_csv_with_pandas (t : ParsedTable) : List (List String) :=
  readWithHeaders ["id", "name", "study"] t

/-- `create_fileFormat_list`: column 0 (`fileFormat`) of the reader rows. -/
def create_fileFormat_list (list_of_row_lists_file_info : List (List String)) : List String :=
  list_of_row_lists_file_info.map (fun r => r.getD 0 "")

/-- `create_fileName_list`: column 1 (`name`) of the reader rows. -/
def create_fileName_list (list_of_row_lists_file_info : List (List String)) : List String :=
  list_of_row_lists_file_info.map (fun r => r.getD 1 "")

/-- `count_fileFormats`: tally the format values and sort by count
descending. -/
def count_fileFormats (fileFormat_list : List String) : List (String × Nat) :=
  sortDesc (tally fileFormat_list)

/-- `count_fileNameExtensions`: derive each name's `pathlib` suffix, tally,
and sort by count descending. -/
def count_fileNameExtensions (fileName_list : List String) : List (String × Nat) :=
  sortDesc (tally (fileName_list.map pathSuffix))

/-! ## Report writers -/

/-- One `csv.DictWriter.writerow(rowdict)` data row: for every fieldname, the
first value bound to it in `rowdict`, or the rest-value `""`.  A fieldname
listed twice (as `"study"` is in the third report) receives the same value
twice. -/
def dictWriterRow (fieldnames : List String) (rowdict : List (String × String)) : List String :=
  fieldnames.map (fun f => ((rowdict.find? (fun p => p.1 == f)).map Prod.snd).getD "")

/-- Fieldnames of the Section 1 report. -/
def preliminaryFieldnames : List String :=
  ["fileFormat value", "fileFormat count", "", "", "fileName extension value", "fileName extension count"]

/-- `write_preliminary_data_processing_results`: header row, then one row per
format entry (left block), then one row per extension entry (right block),
substituting `"[NULL]"` for an empty key in the second loop only. -/
def write_preliminary_data_processing_results
    (sorted_fileFormat_info sorted_fileNameExtensions_info : List (String × Nat)) :
    List (List String) :=
  preliminaryFieldnames ::
    (sorted_fileFormat_info.map (fun p =>
      dictWriterRow preliminaryFieldnames
        [("fileFormat value", p.1), ("fileFormat count", toString p.2)]) ++
     sorted_fileNameExtensions_info.map (fun p =>
      dictWriterRow preliminaryFieldnames
        [("fileName extension value", if p.1.length = 0 then "[NULL]" else p.1),
         ("fileName extension count", toString p.2)]))

/-! ## Download information (Section 2 of the script) -/

/-- `download_frequency_by_identifier`: tally download rows by their `id`
column and sort by count descending (the final `dict(...)` conversion keeps
the sorted order, keys being unique). -/
def download_frequency_by_identifier
    (list_of_row_lists_download_info : List (List String)) : List (String × Nat) :=
  sortDesc (tally (list_of_row_lists_download_info.map (fun r => r.getD 0 "")))

/-- The `id` column of the file-metadata reader rows (`set_1` of
`create_intersection_list` before deduplication). -/
def fileIds (list_of_row_lists_file_info : List (List String)) : List String :=
  list_of_row_lists_file_info.map (fun r => r.getD 2 "")

/-- The `id` column of the download reader rows (`set_2` of
`create_intersection_list`). -/
def downloadIds (list_of_row_lists_download_info : List (List String)) : List String :=
  list_of_row_lists_download_info.map (fun r => r.getD 0 "")

/-- The second phase of `create_intersection_list`, parameterized by the
enumeration `intersection_list = list(set(set_1).intersection(set_2))`, whose
element order CPython leaves unspecified: re-scan the file rows and emit
`[id, fileFormat]` for each row whose id is a member of that list (only
membership is used, which is what makes the order irrelevant). -/
def create_intersection_list_ordered (intersection_list : List String)
    (list_of_row_lists_file_info : List (List String)) : List (String × String) :=
  list_of_row_lists_file_info.filterMap (fun r =>
    if r.getD 2 "" ∈ intersection_list then some (r.getD 2 "", r.getD 0 "") else none)

/-- `create_intersection_list` with one canonical enumeration of the
intersection set (the file ids that also occur among the download ids); any
enumeration with the same members produces the same output. -/
def create_intersection_list (list_of_row_lists_file_info list_of_row_lists_download_info : List (List String)) :
    List (String × String) :=
  create_intersection_list_ordered
    ((fileIds list_of_row_lists_file_info).filter
      (fun x => decide (x ∈ downloadIds list_of_row_lists_download_info)))
    list_of_row_lists_file_info

/-- One step of the first loop of `download_frequency_by_file_format`:
`if item[1] not in dict: dict[item[1]] = 0 elif ...: continue`. -/
def initStep (d : List (String × Nat)) (e : String × String) : List (String × Nat) :=
  if e.2 ∈ d.map Prod.fst then d else d ++ [(e.2, 0)]

/-- The first loop of `download_frequency_by_file_format`: give every format
appearing in an intersection entry a bucket initialized to `0`, in first
appearance order. -/
def initBuckets (inter : List (String × String)) : List (String × Nat) :=
  inter.foldl initStep []

/-- One step of the inner loop of `download_frequency_by_file_format`:
`if key in sub_list[0]: file_format_dict[sub_list[1]] += value` — note the
Python `in` here is SUBSTRING containment of the download id `key` in the
entry's id, not equality. -/
def accumStep (kv : String × Nat) (d : List (String × Nat)) (e : String × String) :
    List (String × Nat) :=
  if pyInStr kv.1 e.1 then bumpBy d e.2 kv.2 else d

/-- The nested loops of `download_frequency_by_file_format`: for every
(identifier, download count) item, add the count to the bucket of every
intersection entry whose id contains the identifier as a substring. -/
def accumulate (inter : List (String × String)) (freq : List (String × Nat))
    (d0 : List (String × Nat)) : List (String × Nat) :=
  freq.foldl (fun d kv => inter.foldl (accumStep kv) d) d0

/-- `download_frequency_by_file_format`: initialize buckets, accumulate, and
sort by count descending. -/
def download_frequency_by_file_format (intersection_list_with_file_format_info : List (String × String))
    (sorted_file_identifier_download_info : List (String × Nat)) : List (String × Nat) :=
  sortDesc (accumulate intersection_list_with_file_format_info
    sorted_file_identifier_download_info
    (initBuckets intersection_list_with_file_format_info))

/-- `download_frequency_by_filename_format_extension`: tally the `pathlib`
suffixes of the download rows' `name` column, sorted by count descending. -/
def download_frequency_by_filename_format_extension
    (list_of_row_lists_download_info : List (List String)) : List (String × Nat) :=
  sortDesc (tally (list_of_row_lists_download_info.map (fun r => pathSuffix (r.getD 1 ""))))

/-- Fieldnames of the Section 2 report. -/
def downloadFieldnames : List String :=
  ["fileFormat value", "fileFormat download count", "", "",
   "fileName format extension value", "fileName format extension download count"]

/-- `write_download_info_to_csv_file`: format rollup rows (left block,
verbatim), then extension rows (right block, `"[NULL]"` for empty keys). -/
def write_download_info_to_csv_file
    (sorted_file_format_info sorted_filename_format_extensions_info : List (String × Nat)) :
    List (List String) :=
  downloadFieldnames ::
    (sorted_file_format_info.map (fun p =>
      dictWriterRow downloadFieldnames
        [("fileFormat value", p.1), ("fileFormat download count", toString p.2)]) ++
     sorted_filename_format_extensions_info.map (fun p =>
      dictWriterRow downloadFieldnames
        [("fileName format extension value", if p.1.length = 0 then "[NULL]" else p.1),
         ("fileName format extension download count", toString p.2)]))

/-! ## Study rollups (Section 3 of the script) -/

/-- `download_count_by_study`: tally download rows by their `study` column
(index 2), sorted by count descending. -/
def download_count_by_study (list_of_row_lists_download_info : List (List String)) :
    List (String × Nat) :=
  sortDesc (tally (list_of_row_lists_download_info.map (fun r => r.getD 2 "")))

/-- `file_count_by_study`: tally file rows by their `study` column (index 3),
sorted by count descending. -/
def file_count_by_study (list_of_row_lists_file_info : List (List String)) :
    List (String × Nat) :=
  sortDesc (tally (list_of_row_lists_file_info.map (fun r => r.getD 3 "")))

/-- Fieldnames of the Section 3 report: note `"study"` is listed twice, so
`DictWriter` writes each row's study value into both study columns. -/
def studyFieldnames : List String :=
  ["study", "number of file downloads", "", "", "study", "number of files in AD Knowledge Portal"]

/-- `write_study_info_to_csv_file`: download-by-study rows (left block,
verbatim), then file-count-by-study rows (right block, `"[NULL]"` for empty
keys). -/
def write_study_info_to_csv_file
    (sorted_study_download_info sorted_file_count_info_by_study : List (String × Nat)) :
    List (List String) :=
  studyFieldnames ::
    (sorted_study_download_info.map (fun p =>
      dictWriterRow studyFieldnames
        [("study", p.1), ("number of file downloads", toString p.2)]) ++
     sorted_file_count_info_by_study.map (fun p =>
      dictWriterRow studyFieldnames
        [("study", if p.1.length = 0 then "[NULL]" else p.1),
         ("number of files in AD Knowledge Portal", toString p.2)]))

/-! ## Re-parsing written output (for the round-trip property) -/

/-- The default NA markers of `pd.read_csv` (pandas 1.x): a cell holding any
of these strings parses as `NaN`. -/
def pandasNAStrings : List String :=
  ["", "#N/A", "#N/A N/A", "#NA", "-1.#IND", "-1.#QNAN", "-NaN", "-nan",
   "1.#IND", "1.#QNAN", "<NA>", "N/A", "NA", "NULL", "NaN", "None", "n/a", "nan", "null"]

/-- Parse one written cell back as pandas does: NA markers become `none`. -/
def parseCell (s : String) : Option String :=
  if s ∈ pandasNAStrings then none else some s

/-- Parse a written file (rows of cells) back into a `ParsedTable`: first row
is the header, every other cell goes through NA detection. -/
def parseCSV (file : List (List String)) : ParsedTable :=
  { headers := file.headD [], rows := (file.drop 1).map (fun r => r.map parseCell) }

/-- Re-read a written report and extract the left block's (key, count)
columns by their header names, as re-reading the file with the pandas reader
and projecting those two columns does. -/
def extractLeftBlock (file : List (List String)) (keyHeader countHeader : String) :
    List (String × String) :=
  (readWithHeaders [keyHeader, countHeader] (parseCSV file)).map
    (fun r => (r.getD 0 "", r.getD 1 ""))

/-- Column `j` of the data rows of a written report file. -/
def colAt (file : List (List String)) (j : Nat) : List String :=
  (file.drop 1).map (fun r => r.getD j "")

/-! ## The whole pipeline (the script's main block) -/

/-- The three report files the main block writes, parameterized by the
enumeration order of the id-intersection set (see
`create_intersection_list_ordered`). -/
def pipelineReports (intersectionEnum : List String) (ft dt : ParsedTable) :
    List (List String) × List (List String) × List (List String) :=
  (write_preliminary_data_processing_results
      (count_fileFormats (create_fileFormat_list (read_file_info_csv_with_pandas ft)))
      (count_fileNameExtensions (create_fileName_list (read_file_info_csv_with_pandas ft))),
   write_download_info_to_csv_file
      (download_frequency_by_file_format
        (create_intersection_list_ordered intersectionEnum (read_file_info_csv_with_pandas ft))
        (download_frequency_by_identifier (read_download_info_csv_with_pandas dt)))
      (download_frequency_by_filename_format_extension (read_download_info_csv_with_pandas dt)),
   write_study_info_to_csv_file
      (download_count_by_study (read_download_info_csv_with_pandas dt))
      (file_count_by_study (read_file_info_csv_with_pandas ft)))

/-! ## Spec-side definitions for refinement comparisons -/

/-- The extension derivation exactly as the specification words it: the
substring from the last `'.'` of the whole string (inclusive) to the end, or
the empty string if the string contains no `'.'`. -/
def specLastDotExtension (s : String) : String :=
  match lastDotIdx s.toList with
  | some i => String.mk (s.toList.drop i)
  | none => ""

/-- Scan for the last `'.'` of a character list and return the characters
from it (inclusive) to the end, if any: the spec-side view of a suffix. -/
def extFromLastDot : List Char → Option (List Char)
  | [] => none
  | c :: cs =>
    match extFromLastDot cs with
    | some r => some r
    | none => if c == '.' then some (c :: cs) else none

/-- The amended spec-side extension derivation: take the final path
component; return the characters from its last `'.'` (inclusive) to its end
when that dot is neither the component's first character nor its last one,
and the empty string otherwise. -/
def specAmendedExtension (s : String) : String :=
  match pathlibNameChars s with
  | [] => ""
  | _ :: rest =>
    match extFromLastDot rest with
    | some r => if 2 ≤ r.length then String.mk r else ""
    | none => ""

/-- A frequency table is count-descending: each entry's count is at least
every later entry's count. -/
def sortedDescByCount (t : List (String × Nat)) : Prop :=
  t.Pairwise (fun a b => b.2 ≤ a.2)

/-- The FrequencyTable data-model invariant relative to the accumulating
map `pre` the table was sorted from: positive counts, unique keys,
count-descending order, and stability (entries of any fixed count keep
exactly their order in the accumulating map, which holds its keys in first
insertion order). -/
def freqTableInvariant (t pre : List (String × Nat)) : Prop :=
  (∀ p ∈ t, 1 ≤ p.2) ∧ (t.map Prod.fst).Nodup ∧ sortedDescByCount t ∧
    ∀ c, t.filter (fun q => q.2 == c) = pre.filter (fun q => q.2 == c)

/-! ## Lemmas about the stable descending sort -/

theorem insertDesc_perm (p : String × Nat) (l : List (String × Nat)) :
    (insertDesc p l).Perm (p :: l) := by
  induction l with
  | nil => simp [insertDesc]
  | cons q qs ih =>
    simp only [insertDesc]
    split
    · exact List.Perm.refl _
    · exact (ih.cons q).trans (List.Perm.swap p q qs)

theorem sortDesc_perm (l : List (String × Nat)) : (sortDesc l).Perm l := by
  induction l with
  | nil => simp [sortDesc]
  | cons x xs ih =>
    exact (insertDesc_perm x (sortDesc xs)).trans (ih.cons x)

theorem mem_insertDesc (p q : String × Nat) (l : List (String × Nat)) :
    q ∈ insertDesc p l ↔ q = p ∨ q ∈ l := by
  rw [(insertDesc_perm p l).mem_iff, List.mem_cons]

theorem insertDesc_sorted (p : String × Nat) (l : List (String × Nat))
    (h : sortedDescByCount l) : sortedDescByCount (insertDesc p l) := by
  induction l with
  | nil => simp [insertDesc, sortedDescByCount]
  | cons q qs ih =>
    rw [sortedDescByCount, List.pairwise_cons] at h
    simp only [insertDesc]
    split
    · rename_i hc
      rw [sortedDescByCount, List.pairwise_cons]
      refine ⟨?_, List.pairwise_cons.mpr h⟩
      intro r hr
      rcases List.mem_cons.mp hr with hrq | hrqs
      · exact hrq ▸ hc
      · exact le_trans (h.1 r hrqs) hc
    · rename_i hc
      rw [sortedDescByCount, List.pairwise_cons]
      refine ⟨?_, ih h.2⟩
      intro r hr
      rcases (mem_insertDesc p r qs).mp hr with hrp | hrqs
      · exact hrp ▸ le_of_lt (Nat.lt_of_not_le hc)
      · exact h.1 r hrqs

theorem sortDesc_sorted (l : List (String × Nat)) : sortedDescByCount (sortDesc l) := by
  induction l with
  | nil => simp [sortDesc, sortedDescByCount]
  | cons x xs ih => exact insertDesc_sorted x (sortDesc xs) ih

theorem filter_insertDesc (p : String × Nat) (l : List (String × Nat)) (c : Nat) :
    (insertDesc p l).filter (fun q => q.2 == c) =
      if p.2 = c then p :: l.filter (fun q => q.2 == c)
      else l.filter (fun q => q.2 == c) := by
  induction l with
  | nil =>
    by_cases hp : p.2 = c <;> simp [insertDesc, List.filter_cons, beq_iff_eq, hp]
  | cons q qs ih =>
    simp only [insertDesc]
    split
    · rename_i hc
      by_cases hp : p.2 = c <;> simp [List.filter_cons, beq_iff_eq, hp]
    · rename_i hc
      by_cases hp : p.2 = c
      · have hq : ¬ q.2 = c := by
          intro hqc
          exact hc (le_of_eq (hqc.trans hp.symm))
        simp [List.filter_cons, beq_iff_eq, hq, ih, hp]
      · simp [List.filter_cons, beq_iff_eq, ih, hp]

theorem sortDesc_filter (l : List (String × Nat)) (c : Nat) :
    (sortDesc l).filter (fun q => q.2 == c) = l.filter (fun q => q.2 == c) := by
  induction l with
  | nil => simp [sortDesc]
  | cons x xs ih =>
    simp only [sortDesc, filter_insertDesc, List.filter_cons, ih]
    by_cases hp : x.2 = c <;> simp [hp]

theorem sortDesc_sum (l : List (String × Nat)) :
    ((sortDesc l).map Prod.snd).sum = (l.map Prod.snd).sum :=
  ((sortDesc_perm l).map Prod.snd).sum_eq

theorem sortDesc_keys_nodup (l : List (String × Nat)) (h : (l.map Prod.fst).Nodup) :
    ((sortDesc l).map Prod.fst).Nodup :=
  (((sortDesc_perm l).map Prod.fst).nodup_iff).mpr h

theorem mem_sortDesc (l : List (String × Nat)) (p : String × Nat) :
    p ∈ sortDesc l ↔ p ∈ l :=
  (sortDesc_perm l).mem_iff

/-! ## Lemmas about the counting idiom -/

theorem bumpBy_cons (p : String × Nat) (ps : List (String × Nat)) (k : String) (v : Nat) :
    bumpBy (p :: ps) k v = (if p.1 = k then (p.1, p.2 + v) else p) :: bumpBy ps k v := rfl

theorem bumpBy_keys (d : List (String × Nat)) (k : String) (v : Nat) :
    (bumpBy d k v).map Prod.fst = d.map Prod.fst := by
  unfold bumpBy
  rw [List.map_map]
  refine List.map_congr_left ?_
  intro p _
  simp only [Function.comp_apply]
  split <;> rfl

theorem bumpBy_of_not_mem (d : List (String × Nat)) (k : String) (v : Nat)
    (h : k ∉ d.map Prod.fst) : bumpBy d k v = d := by
  induction d with
  | nil => rfl
  | cons p ps ih =>
    simp only [List.map_cons, List.mem_cons, not_or] at h
    rw [bumpBy_cons, if_neg (fun hp => h.1 hp.symm), ih h.2]

theorem bumpBy_snd_sum (d : List (String × Nat)) (k : String) (v : Nat)
    (hnd : (d.map Prod.fst).Nodup) (hm : k ∈ d.map Prod.fst) :
    ((bumpBy d k v).map Prod.snd).sum = (d.map Prod.snd).sum + v := by
  induction d with
  | nil => simp at hm
  | cons p ps ih =>
    simp only [List.map_cons, List.nodup_cons] at hnd
    rw [bumpBy_cons]
    by_cases hp : p.1 = k
    · have hk : k ∉ ps.map Prod.fst := hp ▸ hnd.1
      rw [if_pos hp, bumpBy_of_not_mem ps k v hk]
      simp
      omega
    · rw [if_neg hp]
      have hm' : k ∈ ps.map Prod.fst := by
        rcases List.mem_cons.mp hm with h1 | h2
        · exact absurd h1.symm hp
        · exact h2
      simp only [List.map_cons, List.sum_cons, ih hnd.2 hm']
      omega

theorem bumpBy_pos (d : List (String × Nat)) (k : String) (v : Nat)
    (h : ∀ p ∈ d, 1 ≤ p.2) : ∀ p ∈ bumpBy d k v, 1 ≤ p.2 := by
  intro p hp
  rcases List.mem_map.mp hp with ⟨q, hq, rfl⟩
  have hq2 := h q hq
  by_cases hk : q.1 = k
  · simp only [if_pos hk]
    omega
  · simpa [if_neg hk] using hq2

theorem bumpOrInsert_keys (d : List (String × Nat)) (k : String) :
    (bumpOrInsert d k).map Prod.fst =
      if k ∈ d.map Prod.fst then d.map Prod.fst else d.map Prod.fst ++ [k] := by
  unfold bumpOrInsert
  split
  · exact bumpBy_keys d k 1
  · simp

theorem bumpOrInsert_nodup (d : List (String × Nat)) (k : String)
    (h : (d.map Prod.fst).Nodup) : ((bumpOrInsert d k).map Prod.fst).Nodup := by
  rw [bumpOrInsert_keys]
  split
  · exact h
  · rename_i hk
    rw [List.nodup_append]
    exact ⟨h, List.nodup_singleton k, by simpa [List.disjoint_singleton] using hk⟩

theorem bumpOrInsert_sum (d : List (String × Nat)) (k : String)
    (h : (d.map Prod.fst).Nodup) :
    ((bumpOrInsert d k).map Prod.snd).sum = (d.map Prod.snd).sum + 1 := by
  unfold bumpOrInsert
  split
  · exact bumpBy_snd_sum d k 1 h (by assumption)
  · simp

theorem bumpOrInsert_pos (d : List (String × Nat)) (k : String)
    (h : ∀ p ∈ d, 1 ≤ p.2) : ∀ p ∈ bumpOrInsert d k, 1 ≤ p.2 := by
  unfold bumpOrInsert
  split
  · exact bumpBy_pos d k 1 h
  · intro p hp
    rcases List.mem_append.mp hp with h1 | h2
    · exact h p h1
    · simp only [List.mem_singleton] at h2
      subst h2
      exact le_refl 1

theorem bumpOrInsert_keys_mem (d : List (String × Nat)) (k x : String) :
    x ∈ (bumpOrInsert d k).map Prod.fst ↔ x ∈ d.map Prod.fst ∨ x = k := by
  rw [bumpOrInsert_keys]
  split
  · rename_i hk
    constructor
    · exact Or.inl
    · rintro (h | rfl)
      · exact h
      · exact hk
  · simp

theorem tally_loop (xs : List String) (acc : List (String × Nat))
    (hnd : (acc.map Prod.fst).Nodup) :
    ((xs.foldl bumpOrInsert acc).map Prod.fst).Nodup
    ∧ ((xs.foldl bumpOrInsert acc).map Prod.snd).sum = (acc.map Prod.snd).sum + xs.length
    ∧ (∀ x, x ∈ (xs.foldl bumpOrInsert acc).map Prod.fst ↔ x ∈ acc.map Prod.fst ∨ x ∈ xs)
    ∧ ((∀ p ∈ acc, 1 ≤ p.2) → ∀ p ∈ xs.foldl bumpOrInsert acc, 1 ≤ p.2) := by
  induction xs generalizing acc with
  | nil => exact ⟨hnd, by simp, by simp, fun h => by simpa using h⟩
  | cons x xs ih =>
    have hnd' := bumpOrInsert_nodup acc x hnd
    obtain ⟨ih1, ih2, ih3, ih4⟩ := ih (bumpOrInsert acc x) hnd'
    refine ⟨ih1, ?_, ?_, ?_⟩
    · simp only [List.foldl_cons]
      rw [ih2, bumpOrInsert_sum acc x hnd, List.length_cons]
      omega
    · intro y
      simp only [List.foldl_cons]
      rw [ih3, bumpOrInsert_keys_mem, List.mem_cons]
      tauto
    · intro hpos
      exact ih4 (bumpOrInsert_pos acc x hpos)

theorem tally_nodup (xs : List String) : ((tally xs).map Prod.fst).Nodup :=
  (tally_loop xs [] (by simp)).1

theorem tally_sum (xs : List String) : ((tally xs).map Prod.snd).sum = xs.length := by
  have := (tally_loop xs [] (by simp)).2.1
  simpa [tally] using this

theorem tally_keys_mem (xs : List String) (x : String) :
    x ∈ (tally xs).map Prod.fst ↔ x ∈ xs := by
  have := (tally_loop xs [] (by simp)).2.2.1 x
  simpa [tally] using this

theorem tally_pos (xs : List String) : ∀ p ∈ tally xs, 1 ≤ p.2 :=
  (tally_loop xs [] (by simp)).2.2.2 (by simp)

/-- A sorted tally satisfies the FrequencyTable invariant relative to its
accumulating map. -/
theorem freqTable_of_tally (xs : List String) :
    freqTableInvariant (sortDesc (tally xs)) (tally xs) := by
  refine ⟨?_, sortDesc_keys_nodup _ (tally_nodup xs), sortDesc_sorted _,
    fun c => sortDesc_filter _ c⟩
  intro p hp
  exact tally_pos xs p ((mem_sortDesc _ p).mp hp)

/-! ## Lemmas about the format rollup -/

theorem listStarts_refl (l : List Char) : listStarts l l = true := by
  induction l with
  | nil => rfl
  | cons c cs ih => simp [listStarts, ih]

theorem isSubOf_refl (l : List Char) : isSubOf l l = true := by
  cases l with
  | nil => rfl
  | cons c cs => simp [isSubOf, listStarts_refl]

theorem pyInStr_refl (s : String) : pyInStr s s = true :=
  isSubOf_refl s.toList

theorem alookup_of_mem (d : List (String × Nat)) (hnd : (d.map Prod.fst).Nodup)
    (p : String × Nat) (hp : p ∈ d) : alookup d p.1 = some p.2 := by
  induction d with
  | nil => simp at hp
  | cons q qs ih =>
    simp only [List.map_cons, List.nodup_cons] at hnd
    rcases List.mem_cons.mp hp with rfl | hmem
    · simp [alookup, List.find?_cons]
    · have hne : q.1 ≠ p.1 := by
        intro he
        exact hnd.1 (he ▸ List.mem_map.mpr ⟨p, hmem, rfl⟩)
      have hbeq : (q.1 == p.1) = false := by simpa using hne
      simp only [alookup, List.find?_cons, hbeq]
      simpa [alookup] using ih hnd.2 hmem

theorem alookup_bumpBy (d : List (String × Nat)) (k : String) (v : Nat) (k0 : String) :
    alookup (bumpBy d k v) k0 =
      if k0 = k then (alookup d k0).map (fun n => n + v) else alookup d k0 := by
  induction d with
  | nil => by_cases h : k0 = k <;> simp [bumpBy, alookup, h]
  | cons q qs ih =>
    rw [bumpBy_cons]
    by_cases hq : q.1 = k <;> by_cases h0 : k0 = k <;> by_cases hh : q.1 = k0 <;>
      simp_all [alookup, List.find?_cons]

theorem alookup_accumStep (kv : String × Nat) (e : String × String)
    (d : List (String × Nat)) (k0 : String) (n : Nat) (h : alookup d k0 = some n) :
    ∃ m, alookup (accumStep kv d e) k0 = some m ∧ n ≤ m := by
  unfold accumStep
  split
  · rw [alookup_bumpBy]
    by_cases h0 : k0 = e.2
    · subst h0
      exact ⟨n + kv.2, by simp [h], by omega⟩
    · exact ⟨n, by simp [h0, h], le_refl n⟩
  · exact ⟨n, h, le_refl n⟩

theorem alookup_innerFold (kv : String × Nat) (inter : List (String × String))
    (d : List (String × Nat)) (k0 : String) (n : Nat) (h : alookup d k0 = some n) :
    ∃ m, alookup (inter.foldl (accumStep kv) d) k0 = some m ∧ n ≤ m := by
  induction inter generalizing d n with
  | nil => exact ⟨n, h, le_refl n⟩
  | cons e es ih =>
    obtain ⟨m1, hm1, hle1⟩ := alookup_accumStep kv e d k0 n h
    obtain ⟨m, hm, hle⟩ := ih (accumStep kv d e) m1 hm1
    exact ⟨m, by simpa using hm, le_trans hle1 hle⟩

theorem alookup_innerFold_bump (kv : String × Nat) (inter : List (String × String))
    (d : List (String × Nat)) (k0 : String) (n : Nat) (h : alookup d k0 = some n)
    (e : String × String) (he : e ∈ inter) (hsub : pyInStr kv.1 e.1 = true)
    (hk : e.2 = k0) :
    ∃ m, alookup (inter.foldl (accumStep kv) d) k0 = some m ∧ n + kv.2 ≤ m := by
  induction inter generalizing d n with
  | nil => simp at he
  | cons e0 es ih =>
    rcases List.mem_cons.mp he with rfl | hes
    · have hstep : alookup (accumStep kv d e) k0 = some (n + kv.2) := by
        unfold accumStep
        rw [if_pos hsub, alookup_bumpBy, if_pos hk.symm, h]
        rfl
      obtain ⟨m, hm, hle⟩ := alookup_innerFold kv es (accumStep kv d e) k0 (n + kv.2) hstep
      exact ⟨m, by simpa using hm, hle⟩
    · obtain ⟨m1, hm1, hle1⟩ := alookup_accumStep kv e0 d k0 n h
      obtain ⟨m, hm, hle⟩ := ih (accumStep kv d e0) m1 hm1 hes
      exact ⟨m, by simpa using hm, by omega⟩

theorem alookup_outerFold (inter : List (String × String)) (freq : List (String × Nat))
    (d : List (String × Nat)) (k0 : String) (n : Nat) (h : alookup d k0 = some n) :
    ∃ m, alookup (freq.foldl (fun d kv => inter.foldl (accumStep kv) d) d) k0 = some m
      ∧ n ≤ m := by
  induction freq generalizing d n with
  | nil => exact ⟨n, h, le_refl n⟩
  | cons kv kvs ih =>
    obtain ⟨m1, hm1, hle1⟩ := alookup_innerFold kv inter d k0 n h
    obtain ⟨m, hm, hle⟩ := ih (inter.foldl (accumStep kv) d) m1 hm1
    exact ⟨m, by simpa using hm, le_trans hle1 hle⟩

theorem alookup_accumulate_bump (inter : List (String × String))
    (freq : List (String × Nat)) (d0 : List (String × Nat)) (k0 : String) (n : Nat)
    (h0 : alookup d0 k0 = some n) (kv : String × Nat) (hkv : kv ∈ freq)
    (e : String × String) (he : e ∈ inter) (hsub : pyInStr kv.1 e.1 = true)
    (hk : e.2 = k0) :
    ∃ m, alookup (accumulate inter freq d0) k0 = some m ∧ n + kv.2 ≤ m := by
  obtain ⟨l1, l2, rfl⟩ := List.append_of_mem hkv
  unfold accumulate
  rw [List.foldl_append]
  obtain ⟨m1, hm1, hle1⟩ := alookup_outerFold inter l1 d0 k0 n h0
  obtain ⟨m2, hm2, hle2⟩ :=
    alookup_innerFold_bump kv inter (l1.foldl (fun d kv => inter.foldl (accumStep kv) d) d0)
      k0 m1 hm1 e he hsub hk
  obtain ⟨m, hm, hle⟩ :=
    alookup_outerFold inter l2
      (inter.foldl (accumStep kv) (l1.foldl (fun d kv => inter.foldl (accumStep kv) d) d0))
      k0 m2 hm2
  refine ⟨m, by simpa using hm, ?_⟩
  omega

theorem accumStep_keys (kv : String × Nat) (d : List (String × Nat)) (e : String × String) :
    (accumStep kv d e).map Prod.fst = d.map Prod.fst := by
  unfold accumStep
  split
  · exact bumpBy_keys d e.2 kv.2
  · rfl

theorem innerFold_keys (kv : String × Nat) (inter : List (String × String))
    (d : List (String × Nat)) :
    (inter.foldl (accumStep kv) d).map Prod.fst = d.map Prod.fst := by
  induction inter generalizing d with
  | nil => rfl
  | cons e es ih =>
    simp only [List.foldl_cons]
    rw [ih, accumStep_keys]

theorem accumulate_keys (inter : List (String × String)) (freq : List (String × Nat))
    (d0 : List (String × Nat)) :
    (accumulate inter freq d0).map Prod.fst = d0.map Prod.fst := by
  unfold accumulate
  induction freq generalizing d0 with
  | nil => rfl
  | cons kv kvs ih =>
    simp only [List.foldl_cons]
    rw [ih, innerFold_keys]

theorem initBuckets_loop (inter : List (String × String)) (acc : List (String × Nat))
    (hnd : (acc.map Prod.fst).Nodup) :
    ((inter.foldl initStep acc).map Prod.fst).Nodup
    ∧ ∀ p ∈ inter.foldl initStep acc,
        p ∈ acc ∨ ∃ i, (i, p.1) ∈ inter ∧ p.2 = 0 := by
  induction inter generalizing acc with
  | nil => exact ⟨hnd, fun p hp => Or.inl hp⟩
  | cons e es ih =>
    have hstep : ((initStep acc e).map Prod.fst).Nodup := by
      unfold initStep
      split
      · exact hnd
      · rename_i hm
        rw [List.map_append, List.nodup_append]
        refine ⟨hnd, by simp, ?_⟩
        simpa [List.disjoint_singleton] using hm
    obtain ⟨ih1, ih2⟩ := ih (initStep acc e) hstep
    refine ⟨by simpa using ih1, ?_⟩
    intro p hp
    rcases ih2 p (by simpa using hp) with hacc | ⟨i, hi, hz⟩
    · unfold initStep at hacc
      split at hacc
      · exact Or.inl hacc
      · rcases List.mem_append.mp hacc with h1 | h2
        · exact Or.inl h1
        · simp only [List.mem_singleton] at h2
          subst h2
          exact Or.inr ⟨e.1, List.mem_cons_self e es, rfl⟩
    · exact Or.inr ⟨i, List.mem_cons_of_mem e hi, hz⟩

theorem initBuckets_nodup (inter : List (String × String)) :
    ((initBuckets inter).map Prod.fst).Nodup :=
  (initBuckets_loop inter [] (by simp)).1

theorem initBuckets_entries (inter : List (String × String)) :
    ∀ p ∈ initBuckets inter, ∃ i, (i, p.1) ∈ inter ∧ p.2 = 0 := by
  intro p hp
  rcases (initBuckets_loop inter [] (by simp)).2 p hp with h | h
  · simp at h
  · exact h

theorem create_intersection_list_mem (f d : List (List String)) (e : String × String)
    (he : e ∈ create_intersection_list f d) : e.1 ∈ downloadIds d := by
  unfold create_intersection_list create_intersection_list_ordered at he
  rcases List.mem_filterMap.mp he with ⟨r, hr, hcond⟩
  split at hcond
  · rename_i hc
    cases hcond
    exact of_decide_eq_true (List.mem_filter.mp hc).2
  · cases hcond

/-- Every bucket of the format rollup ends at a positive count when the
intersection entries and the identifier frequency table come from the same
download rows: each bucket owes its existence to an intersection entry
`(i, fmt)`, whose id `i` is itself a download id, hence a key of the
frequency table with count at least one; the inner loop adds that count to
the bucket because `i` is a substring of itself. -/
theorem download_frequency_by_file_format_pos (f d : List (List String)) :
    ∀ p ∈ download_frequency_by_file_format (create_intersection_list f d)
        (download_frequency_by_identifier d), 1 ≤ p.2 := by
  intro p hp
  have hmem : p ∈ accumulate (create_intersection_list f d)
      (download_frequency_by_identifier d) (initBuckets (create_intersection_list f d)) :=
    (mem_sortDesc _ p).mp hp
  have hknd : ((accumulate (create_intersection_list f d)
      (download_frequency_by_identifier d)
      (initBuckets (create_intersection_list f d))).map Prod.fst).Nodup := by
    rw [accumulate_keys]
    exact initBuckets_nodup _
  have hlook := alookup_of_mem _ hknd p hmem
  have hkey : p.1 ∈ (initBuckets (create_intersection_list f d)).map Prod.fst := by
    rw [← accumulate_keys (create_intersection_list f d)
      (download_frequency_by_identifier d) (initBuckets (create_intersection_list f d))]
    exact List.mem_map.mpr ⟨p, hmem, rfl⟩
  obtain ⟨q, hq, hq1⟩ := List.mem_map.mp hkey
  obtain ⟨i, hi, hq0⟩ := initBuckets_entries _ q hq
  have h0 : alookup (initBuckets (create_intersection_list f d)) p.1 = some 0 := by
    have := alookup_of_mem _ (initBuckets_nodup _) q hq
    rw [hq1, hq0] at this
    exact this
  have hdl : i ∈ downloadIds d := create_intersection_list_mem f d (i, q.1) hi
  have hidk : i ∈ (tally (downloadIds d)).map Prod.fst := (tally_keys_mem _ i).mpr hdl
  obtain ⟨pr, hpr, hpr1⟩ := List.mem_map.mp hidk
  have hprf : pr ∈ download_frequency_by_identifier d := by
    rw [download_frequency_by_identifier, mem_sortDesc]
    exact hpr
  have hpos := tally_pos (downloadIds d) pr hpr
  have hsub : pyInStr pr.1 (i, q.1).1 = true := by
    rw [hpr1]
    exact pyInStr_refl i
  obtain ⟨m, hm, hle⟩ := alookup_accumulate_bump (create_intersection_list f d)
    (download_frequency_by_identifier d) (initBuckets (create_intersection_list f d))
    p.1 0 h0 pr hprf (i, q.1) hi hsub hq1
  rw [hlook] at hm
  cases hm
  omega

/-- The format rollup satisfies the FrequencyTable invariant relative to its
accumulating map. -/
theorem freqTable_of_rollup (f d : List (List String)) :
    freqTableInvariant
      (download_frequency_by_file_format (create_intersection_list f d)
        (download_frequency_by_identifier d))
      (accumulate (create_intersection_list f d) (download_frequency_by_identifier d)
        (initBuckets (create_intersection_list f d))) := by
  refine ⟨download_frequency_by_file_format_pos f d, ?_, sortDesc_sorted _,
    fun c => sortDesc_filter _ c⟩
  unfold download_frequency_by_file_format
  apply sortDesc_keys_nodup
  rw [accumulate_keys]
  exact initBuckets_nodup _

/-! ## Lemmas about extension derivation -/

theorem string_length_eq_zero (s : String) : s.length = 0 ↔ s = "" := by
  cases s with
  | mk data =>
    constructor
    · intro h
      have : data = [] := List.length_eq_zero.mp h
      rw [this]
    · intro h
      rw [h]
      rfl

theorem lastDotIdx_lt_length (cs : List Char) : ∀ i, lastDotIdx cs = some i → i < cs.length := by
  induction cs with
  | nil =>
    intro i h
    simp [lastDotIdx] at h
  | cons c cs ih =>
    intro i h
    cases hcs : lastDotIdx cs with
    | some j =>
      simp only [lastDotIdx, hcs, Option.some.injEq] at h
      have := ih j hcs
      simp only [List.length_cons]
      omega
    | none =>
      simp only [lastDotIdx, hcs] at h
      by_cases hc : (c == '.') = true
      · rw [if_pos hc] at h
        simp only [Option.some.injEq] at h
        simp only [List.length_cons]
        omega
      · rw [if_neg hc] at h
        cases h

theorem extFromLastDot_eq (cs : List Char) :
    extFromLastDot cs = (lastDotIdx cs).map (fun i => cs.drop i) := by
  induction cs with
  | nil => rfl
  | cons c cs ih =>
    cases hcs : lastDotIdx cs with
    | some j =>
      have hex : extFromLastDot cs = some (cs.drop j) := by
        rw [ih, hcs]
        rfl
      simp only [extFromLastDot, lastDotIdx, hex, hcs]
      rfl
    | none =>
      have hex : extFromLastDot cs = none := by
        rw [ih, hcs]
        rfl
      simp only [extFromLastDot, lastDotIdx, hex, hcs]
      by_cases hc : (c == '.') = true
      · simp [hc]
      · simp [hc]

/-- The `pathlib` suffix agrees with the amended spec-side derivation: the
characters from the final path component's last dot, kept exactly when that
dot is neither the component's first character nor its last. -/
theorem pathSuffix_eq_specAmendedExtension (s : String) :
    pathSuffix s = specAmendedExtension s := by
  unfold pathSuffix specAmendedExtension
  cases hname : pathlibNameChars s with
  | nil => simp [lastDotIdx]
  | cons c rest =>
    dsimp only
    cases hr : lastDotIdx rest with
    | some j =>
      have h1 : lastDotIdx (c :: rest) = some (j + 1) := by
        simp [lastDotIdx, hr]
      have h2 : extFromLastDot rest = some (rest.drop j) := by
        rw [extFromLastDot_eq, hr]
        rfl
      rw [h1, h2]
      show (if 0 < j + 1 ∧ j + 1 + 1 < (c :: rest).length
              then String.mk ((c :: rest).drop (j + 1)) else "")
            = (if 2 ≤ (rest.drop j).length then String.mk (rest.drop j) else "")
      have hj := lastDotIdx_lt_length rest j hr
      have hdrop : (c :: rest).drop (j + 1) = rest.drop j := rfl
      rw [hdrop]
      have hiff : (0 < j + 1 ∧ j + 1 + 1 < (c :: rest).length) ↔ (2 ≤ (rest.drop j).length) := by
        simp only [List.length_cons, List.length_drop]
        omega
      rw [if_congr hiff rfl rfl]
    | none =>
      have h1 : lastDotIdx (c :: rest) = (if c == '.' then some 0 else none) := by
        simp [lastDotIdx, hr]
      have h2 : extFromLastDot rest = none := by
        rw [extFromLastDot_eq, hr]
        rfl
      rw [h1, h2]
      by_cases hc : (c == '.') = true <;> simp [hc]

/-! ## Lemmas about the join engine -/

theorem canonical_enum_mem (f d : List (List String)) (r : List String) (hr : r ∈ f) :
    (r.getD 2 "" ∈ (fileIds f).filter (fun x => decide (x ∈ downloadIds d)))
      ↔ r.getD 2 "" ∈ downloadIds d := by
  rw [List.mem_filter]
  constructor
  · intro h
    exact of_decide_eq_true h.2
  · intro h
    exact ⟨List.mem_map.mpr ⟨r, hr, rfl⟩, decide_eq_true h⟩

theorem create_intersection_list_ordered_eq (e : List String) (f : List (List String))
    (cond : List String → Bool)
    (h : ∀ r ∈ f, decide (r.getD 2 "" ∈ e) = cond r) :
    create_intersection_list_ordered e f =
      (f.filter cond).map (fun r => (r.getD 2 "", r.getD 0 "")) := by
  induction f with
  | nil => rfl
  | cons r rs ih =>
    have ih' := ih (fun r hr => h r (List.mem_cons_of_mem _ hr))
    have hr := h r (List.mem_cons_self r rs)
    by_cases hc : r.getD 2 "" ∈ e
    · have hcond : cond r = true := by
        rw [← hr]
        exact decide_eq_true hc
      simp only [create_intersection_list_ordered, List.filterMap_cons, if_pos hc,
        List.filter_cons, hcond, List.map_cons]
      exact congrArg _ ih'
    · have hcond : cond r = false := by
        rw [← hr]
        exact decide_eq_false hc
      simp only [create_intersection_list_ordered, List.filterMap_cons, if_neg hc,
        List.filter_cons, hcond]
      exact ih'

/-- The join engine emits exactly one `(id, fileFormat)` pair per file row
whose id occurs among the download ids, in file-row order. -/
theorem create_intersection_list_characterization (f d : List (List String)) :
    create_intersection_list f d =
      (f.filter (fun r => decide (r.getD 2 "" ∈ downloadIds d))).map
        (fun r => (r.getD 2 "", r.getD 0 "")) := by
  unfold create_intersection_list
  refine create_intersection_list_ordered_eq _ f _ ?_
  intro r hr
  exact decide_eq_decide.mpr (canonical_enum_mem f d r hr)

theorem create_intersection_list_ordered_congr (e1 e2 : List String)
    (f : List (List String)) (h : ∀ x, x ∈ e1 ↔ x ∈ e2) :
    create_intersection_list_ordered e1 f = create_intersection_list_ordered e2 f := by
  induction f with
  | nil => rfl
  | cons r rs ih =>
    by_cases hc : r.getD 2 "" ∈ e1
    · have hc2 : r.getD 2 "" ∈ e2 := (h _).mp hc
      simp only [create_intersection_list_ordered, List.filterMap_cons, if_pos hc, if_pos hc2]
      exact congrArg _ ih
    · have hc2 : r.getD 2 "" ∉ e2 := fun hx => hc ((h _).mpr hx)
      simp only [create_intersection_list_ordered, List.filterMap_cons, if_neg hc, if_neg hc2]
      exact ih

/-! ## Lemmas about the report writers -/

theorem prelim_left_row (k v : String) :
    dictWriterRow preliminaryFieldnames [("fileFormat value", k), ("fileFormat count", v)]
      = [k, v, "", "", "", ""] := rfl

theorem prelim_right_row (k v : String) :
    dictWriterRow preliminaryFieldnames
      [("fileName extension value", k), ("fileName extension count", v)]
      = ["", "", "", "", k, v] := rfl

theorem download_left_row (k v : String) :
    dictWriterRow downloadFieldnames
      [("fileFormat value", k), ("fileFormat download count", v)]
      = [k, v, "", "", "", ""] := rfl

theorem download_right_row (k v : String) :
    dictWriterRow downloadFieldnames
      [("fileName format extension value", k), ("fileName format extension download count", v)]
      = ["", "", "", "", k, v] := rfl

theorem study_left_row (k v : String) :
    dictWriterRow studyFieldnames [("study", k), ("number of file downloads", v)]
      = [k, v, "", "", k, ""] := rfl

theorem study_right_row (k v : String) :
    dictWriterRow studyFieldnames
      [("study", k), ("number of files in AD Knowledge Portal", v)]
      = [k, "", "", "", k, v] := rfl

theorem if_length_zero (k x : String) :
    (if k.length = 0 then x else k) = (if k = "" then x else k) :=
  if_congr (string_length_eq_zero k) rfl rfl

/-- Key columns of the Section 1 report: the right block renders empty keys
as the null marker, the left block writes keys verbatim. -/
theorem write_preliminary_cols (fst snd : List (String × Nat)) :
    (colAt (write_preliminary_data_processing_results fst snd) 4).drop fst.length
      = snd.map (fun p => if p.1 = "" then "[NULL]" else p.1)
    ∧ (colAt (write_preliminary_data_processing_results fst snd) 0).take fst.length
      = fst.map Prod.fst := by
  constructor
  · show ((fst.map (fun p => dictWriterRow preliminaryFieldnames
          [("fileFormat value", p.1), ("fileFormat count", toString p.2)]) ++
        snd.map (fun p => dictWriterRow preliminaryFieldnames
          [("fileName extension value", if p.1.length = 0 then "[NULL]" else p.1),
           ("fileName extension count", toString p.2)])).map
        (fun r => r.getD 4 "")).drop fst.length
        = snd.map (fun p => if p.1 = "" then "[NULL]" else p.1)
    rw [List.map_append, List.drop_left' (by simp), List.map_map]
    refine List.map_congr_left ?_
    intro p _
    simp only [Function.comp_apply, prelim_right_row, if_length_zero]
    rfl
  · show ((fst.map (fun p => dictWriterRow preliminaryFieldnames
          [("fileFormat value", p.1), ("fileFormat count", toString p.2)]) ++
        snd.map (fun p => dictWriterRow preliminaryFieldnames
          [("fileName extension value", if p.1.length = 0 then "[NULL]" else p.1),
           ("fileName extension count", toString p.2)])).map
        (fun r => r.getD 0 "")).take fst.length
        = fst.map Prod.fst
    rw [List.map_append, List.take_left' (by simp), List.map_map]
    refine List.map_congr_left ?_
    intro p _
    simp only [Function.comp_apply, prelim_left_row]
    rfl

/-- Key columns of the Section 2 report, as for the Section 1 report. -/
theorem write_download_cols (fst snd : List (String × Nat)) :
    (colAt (write_download_info_to_csv_file fst snd) 4).drop fst.length
      = snd.map (fun p => if p.1 = "" then "[NULL]" else p.1)
    ∧ (colAt (write_download_info_to_csv_file fst snd) 0).take fst.length
      = fst.map Prod.fst := by
  constructor
  · show ((fst.map (fun p => dictWriterRow downloadFieldnames
          [("fileFormat value", p.1), ("fileFormat download count", toString p.2)]) ++
        snd.map (fun p => dictWriterRow downloadFieldnames
          [("fileName format extension value", if p.1.length = 0 then "[NULL]" else p.1),
           ("fileName format extension download count", toString p.2)])).map
        (fun r => r.getD 4 "")).drop fst.length
        = snd.map (fun p => if p.1 = "" then "[NULL]" else p.1)
    rw [List.map_append, List.drop_left' (by simp), List.map_map]
    refine List.map_congr_left ?_
    intro p _
    simp only [Function.comp_apply, download_right_row, if_length_zero]
    rfl
  · show ((fst.map (fun p => dictWriterRow downloadFieldnames
          [("fileFormat value", p.1), ("fileFormat download count", toString p.2)]) ++
        snd.map (fun p => dictWriterRow downloadFieldnames
          [("fileName format extension value", if p.1.length = 0 then "[NULL]" else p.1),
           ("fileName format extension download count", toString p.2)])).map
        (fun r => r.getD 0 "")).take fst.length
        = fst.map Prod.fst
    rw [List.map_append, List.take_left' (by simp), List.map_map]
    refine List.map_congr_left ?_
    intro p _
    simp only [Function.comp_apply, download_left_row]
    rfl

/-- Key columns of the Section 3 report (the right-block key lands in
column 4 because `"study"` is a duplicated fieldname). -/
theorem write_study_cols (fst snd : List (String × Nat)) :
    (colAt (write_study_info_to_csv_file fst snd) 4).drop fst.length
      = snd.map (fun p => if p.1 = "" then "[NULL]" else p.1)
    ∧ (colAt (write_study_info_to_csv_file fst snd) 0).take fst.length
      = fst.map Prod.fst := by
  constructor
  · show ((fst.map (fun p => dictWriterRow studyFieldnames
          [("study", p.1), ("number of file downloads", toString p.2)]) ++
        snd.map (fun p => dictWriterRow studyFieldnames
          [("study", if p.1.length = 0 then "[NULL]" else p.1),
           ("number of files in AD Knowledge Portal", toString p.2)])).map
        (fun r => r.getD 4 "")).drop fst.length
        = snd.map (fun p => if p.1 = "" then "[NULL]" else p.1)
    rw [List.map_append, List.drop_left' (by simp), List.map_map]
    refine List.map_congr_left ?_
    intro p _
    simp only [Function.comp_apply, study_right_row, if_length_zero]
    rfl
  · show ((fst.map (fun p => dictWriterRow studyFieldnames
          [("study", p.1), ("number of file downloads", toString p.2)]) ++
        snd.map (fun p => dictWriterRow studyFieldnames
          [("study", if p.1.length = 0 then "[NULL]" else p.1),
           ("number of files in AD Knowledge Portal", toString p.2)])).map
        (fun r => r.getD 0 "")).take fst.length
        = fst.map Prod.fst
    rw [List.map_append, List.take_left' (by simp), List.map_map]
    refine List.map_congr_left ?_
    intro p _
    simp only [Function.comp_apply, study_left_row]
    rfl

/-! ## Lemmas about the reader and re-parsing -/

theorem findIdx_none_of_not_mem (hs : List String) (h : String) (hnm : h ∉ hs) :
    hs.findIdx? (fun x => x == h) = none := by
  induction hs with
  | nil => rfl
  | cons x xs ih =>
    simp only [List.mem_cons, not_or] at hnm
    have hx : (x == h) = false := by
      simpa using fun he => hnm.1 he.symm
    rw [List.findIdx?_cons, hx]
    simp [ih (by simpa using hnm.2)]

theorem reindexCell_not_mem (hs : List String) (row : List (Option String)) (h : String)
    (hnm : h ∉ hs) : reindexCell hs row h = none := by
  unfold reindexCell
  rw [findIdx_none_of_not_mem hs h hnm]

theorem digitChar_isDigit (d : Nat) (hd : d < 10) : (Nat.digitChar d).isDigit = true := by
  interval_cases d <;> decide

theorem toDigitsCore_digits (fuel : Nat) : ∀ (n : Nat) (ds : List Char),
    (∀ c ∈ ds, c.isDigit = true) → ∀ c ∈ Nat.toDigitsCore 10 fuel n ds, c.isDigit = true := by
  induction fuel with
  | zero =>
    intro n ds hds
    simpa [Nat.toDigitsCore] using hds
  | succ fuel ih =>
    intro n ds hds
    have hd : (Nat.digitChar (n % 10)).isDigit = true :=
      digitChar_isDigit _ (Nat.mod_lt n (by omega))
    have hcons : ∀ c ∈ Nat.digitChar (n % 10) :: ds, c.isDigit = true := by
      intro c hc
      rcases List.mem_cons.mp hc with rfl | hcs
      · exact hd
      · exact hds c hcs
    simp only [Nat.toDigitsCore]
    split
    · exact hcons
    · exact ih (n / 10) _ hcons

theorem toDigitsCore_ne_nil (fuel : Nat) : ∀ (n : Nat) (ds : List Char), ds ≠ [] →
    Nat.toDigitsCore 10 fuel n ds ≠ [] := by
  induction fuel with
  | zero =>
    intro n ds h
    simpa [Nat.toDigitsCore] using h
  | succ fuel ih =>
    intro n ds h
    simp only [Nat.toDigitsCore]
    split
    · simp
    · exact ih _ _ (by simp)

theorem toDigits_def (n : Nat) : Nat.toDigits 10 n = Nat.toDigitsCore 10 (n + 1) n [] := rfl

theorem toDigits_ne_nil (n : Nat) : Nat.toDigits 10 n ≠ [] := by
  rw [toDigits_def]
  simp only [Nat.toDigitsCore]
  split
  · simp
  · exact toDigitsCore_ne_nil n _ _ (by simp)

theorem toString_nat_toList (n : Nat) : (toString n).toList = Nat.toDigits 10 n := rfl

/-- A decimal rendering of a natural number is never one of the pandas NA
markers: it is nonempty and all its characters are digits, while every NA
marker is empty or holds a non-digit. -/
theorem toString_nat_not_na (n : Nat) : parseCell (toString n) = some (toString n) := by
  have hnotin : toString n ∉ pandasNAStrings := by
    intro hmem
    have hprop : ∀ s ∈ pandasNAStrings, s.toList = [] ∨ ∃ c ∈ s.toList, c.isDigit = false := by
      decide
    rcases hprop _ hmem with hnil | ⟨c, hc, hnd⟩
    · exact toDigits_ne_nil n (by rw [← toString_nat_toList]; exact hnil)
    · have hdig : c.isDigit = true := by
        refine toDigitsCore_digits (n + 1) n [] (by simp) c ?_
        rw [← toDigits_def, ← toString_nat_toList]
        exact hc
      rw [hdig] at hnd
      cases hnd
  unfold parseCell
  rw [if_neg hnotin]

theorem sortDesc_keys_mem (l : List (String × Nat)) (x : String) :
    x ∈ (sortDesc l).map Prod.fst ↔ x ∈ l.map Prod.fst :=
  ((sortDesc_perm l).map Prod.fst).mem_iff

theorem extract_row_prelim (k v : String) :
    ((["fileFormat value", "fileFormat count"].map
        (fun hh => normalizeCell (reindexCell preliminaryFieldnames
          ([k, v, "", "", "", ""].map parseCell) hh))).getD 0 "",
     (["fileFormat value", "fileFormat count"].map
        (fun hh => normalizeCell (reindexCell preliminaryFieldnames
          ([k, v, "", "", "", ""].map parseCell) hh))).getD 1 "")
      = (normalizeCell (parseCell k), normalizeCell (parseCell v)) := rfl

/-- Re-reading the left block of the Section 1 report recovers, in its first
`fst.length` rows, exactly the written keys (when they survive NA detection)
paired with the decimal renderings of the written counts. -/
theorem extract_write_preliminary (fst snd : List (String × Nat))
    (h : ∀ p ∈ fst, normalizeCell (parseCell p.1) = p.1) :
    (extractLeftBlock (write_preliminary_data_processing_results fst snd)
        "fileFormat value" "fileFormat count").take fst.length
      = fst.map (fun p => (p.1, toString p.2)) := by
  show ((((fst.map (fun p => dictWriterRow preliminaryFieldnames
          [("fileFormat value", p.1), ("fileFormat count", toString p.2)]) ++
        snd.map (fun p => dictWriterRow preliminaryFieldnames
          [("fileName extension value", if p.1.length = 0 then "[NULL]" else p.1),
           ("fileName extension count", toString p.2)])).map
          (fun r => r.map parseCell)).map
          (fun row => ["fileFormat value", "fileFormat count"].map
            (fun hh => normalizeCell (reindexCell preliminaryFieldnames row hh)))).map
          (fun r => (r.getD 0 "", r.getD 1 ""))).take fst.length
      = fst.map (fun p => (p.1, toString p.2))
  simp only [List.map_append, List.map_map]
  rw [List.take_left' (by simp)]
  refine List.map_congr_left ?_
  intro p hp
  simp only [Function.comp_apply, prelim_left_row]
  rw [extract_row_prelim p.1 (toString p.2), h p hp, toString_nat_not_na]
  rfl

/-! ## The claims -/

/-- C1: the claim says the download-by-format rollup matches identifiers to
intersection entries by exact string equality, so that the rollup total
equals the number of download records whose id equals some file id.  The
code instead tests `key in sub_list[0]`, Python SUBSTRING containment: at
this input ("A" is a substring of the distinct file id "AB") the rollup
totals 3 while only 2 download records have an id equal to a file id, and
the "txt" bucket receives the "A" downloads as well. -/
theorem C1_substring_match_overcount :
    ((download_frequency_by_file_format
        (create_intersection_list
          [["csv", "n1", "A", "s1"], ["txt", "n2", "AB", "s1"]]
          [["A", "m", "t"], ["AB", "m", "t"]])
        (download_frequency_by_identifier [["A", "m", "t"], ["AB", "m", "t"]])).map
        Prod.snd).sum = 3
    ∧ ([["A", "m", "t"], ["AB", "m", "t"]].countP
        (fun r => decide (r.getD 0 ""
          ∈ fileIds [["csv", "n1", "A", "s1"], ["txt", "n2", "AB", "s1"]]))) = 2 := by
  decide

/-- C2 counterexample: the claim says extension derivation returns the
substring from the last dot to the end whenever the string contains a dot;
on `"a."` that substring is `"."`, but the code (`pathlib` suffix) returns
the empty string because the dot is the final character. -/
theorem C2_last_dot_counterexample :
    pathSuffix "a." = "" ∧ specLastDotExtension "a." = "." ∧ ("." : String) ≠ "" := by
  decide

/-- C2 (amended): for every input string (the null-marker string included),
extension derivation takes the final path component (splitting on `'/'` and
ignoring empty and `"."` chunks) and returns the substring from that
component's last `'.'` (inclusive) to its end when the dot is neither the
component's first nor its last character, and the empty string otherwise; it
is a total function into strings. -/
theorem C2_extension_derivation (s : String) : pathSuffix s = specAmendedExtension s :=
  pathSuffix_eq_specAmendedExtension s

/-- C3 counterexample: an empty-string key in the FIRST (left-block) ranking
is written verbatim as an empty field, not as `"[NULL]"`: the writer output
for left ranking `[("", 5)]` holds the data row `["", "5", "", "", "", ""]`,
which contains no `"[NULL]"` token. -/
theorem C3_left_block_empty_key :
    write_study_info_to_csv_file [("", 5)] []
      = [["study", "number of file downloads", "", "", "study",
          "number of files in AD Knowledge Portal"],
         ["", "5", "", "", "", ""]]
    ∧ "[NULL]" ∉ (["", "5", "", "", "", ""] : List String) := by
  decide

/-- C3 (amended): in all three report writers, every empty-string key of the
SECOND (right-block) ranking is written as the literal token `"[NULL]"`,
while keys of the first (left-block) ranking are written verbatim (an empty
left-block key therefore stays an empty field). -/
theorem C3_null_marker_scope (fst snd : List (String × Nat)) :
    ((colAt (write_preliminary_data_processing_results fst snd) 4).drop fst.length
        = snd.map (fun p => if p.1 = "" then "[NULL]" else p.1)
      ∧ (colAt (write_preliminary_data_processing_results fst snd) 0).take fst.length
        = fst.map Prod.fst)
    ∧ ((colAt (write_download_info_to_csv_file fst snd) 4).drop fst.length
        = snd.map (fun p => if p.1 = "" then "[NULL]" else p.1)
      ∧ (colAt (write_download_info_to_csv_file fst snd) 0).take fst.length
        = fst.map Prod.fst)
    ∧ ((colAt (write_study_info_to_csv_file fst snd) 4).drop fst.length
        = snd.map (fun p => if p.1 = "" then "[NULL]" else p.1)
      ∧ (colAt (write_study_info_to_csv_file fst snd) 0).take fst.length
        = fst.map Prod.fst) :=
  ⟨write_preliminary_cols fst snd, write_download_cols fst snd, write_study_cols fst snd⟩

/-- C4: every frequency table the program produces — the format, extension,
per-identifier, and two study tallies, and the download-by-format rollup —
has only positive counts (the rollup keeps no bucket at its initial 0),
unique keys, count-descending order, and equal-count entries in exactly the
order their keys were first inserted into the accumulating map. -/
theorem C4_frequency_table_invariants (xs names : List String)
    (f d : List (List String)) :
    freqTableInvariant (count_fileFormats xs) (tally xs)
    ∧ freqTableInvariant (count_fileNameExtensions names) (tally (names.map pathSuffix))
    ∧ freqTableInvariant (download_frequency_by_identifier d) (tally (downloadIds d))
    ∧ freqTableInvariant (download_count_by_study d)
        (tally (d.map (fun r => r.getD 2 "")))
    ∧ freqTableInvariant (file_count_by_study f)
        (tally (f.map (fun r => r.getD 3 "")))
    ∧ freqTableInvariant
        (download_frequency_by_file_format (create_intersection_list f d)
          (download_frequency_by_identifier d))
        (accumulate (create_intersection_list f d) (download_frequency_by_identifier d)
          (initBuckets (create_intersection_list f d))) := by
  refine ⟨freqTable_of_tally xs, freqTable_of_tally (names.map pathSuffix),
    ?_, ?_, ?_, freqTable_of_rollup f d⟩
  · exact freqTable_of_tally (downloadIds d)
  · exact freqTable_of_tally (d.map (fun r => r.getD 2 ""))
  · exact freqTable_of_tally (f.map (fun r => r.getD 3 ""))

/-- C5: in every direct tally — file formats, extensions, per-identifier
download counts, and both study rollups — the counts sum to the length of
the input sequence. -/
theorem C5_count_sums (xs names : List String) (f d : List (List String)) :
    ((count_fileFormats xs).map Prod.snd).sum = xs.length
    ∧ ((count_fileNameExtensions names).map Prod.snd).sum = names.length
    ∧ ((download_frequency_by_identifier d).map Prod.snd).sum = d.length
    ∧ ((download_count_by_study d).map Prod.snd).sum = d.length
    ∧ ((file_count_by_study f).map Prod.snd).sum = f.length := by
  refine ⟨?_, ?_, ?_, ?_, ?_⟩
  · rw [count_fileFormats, sortDesc_sum, tally_sum]
  · rw [count_fileNameExtensions, sortDesc_sum, tally_sum, List.length_map]
  · rw [download_frequency_by_identifier, sortDesc_sum, tally_sum, List.length_map]
  · rw [download_count_by_study, sortDesc_sum, tally_sum, List.length_map]
  · rw [file_count_by_study, sortDesc_sum, tally_sum, List.length_map]

/-- C6 counterexample: the claim says the join output consists of
`(fileFormat, id)` pairs; the code emits `[id, fileFormat]`, so with format
`"csv"` and id `"A"` the single entry is `("A", "csv")`, not `("csv", "A")`. -/
theorem C6_pair_order_counterexample :
    create_intersection_list [["csv", "n", "A", "s"]] [["A", "m", "t"]] = [("A", "csv")]
    ∧ (("A", "csv") : String × String) ≠ ("csv", "A") := by
  decide

/-- C6 (amended): the join output is a sequence of `(id, fileFormat)` pairs
holding exactly one entry per FileRecord whose id occurs among the
DownloadRecord ids, in FileRecord order, so its length is the number of such
FileRecords. -/
theorem C6_join_characterization (f d : List (List String)) :
    create_intersection_list f d
      = (f.filter (fun r => decide (r.getD 2 "" ∈ downloadIds d))).map
          (fun r => (r.getD 2 "", r.getD 0 ""))
    ∧ (create_intersection_list f d).length
      = f.countP (fun r => decide (r.getD 2 "" ∈ downloadIds d)) := by
  refine ⟨create_intersection_list_characterization f d, ?_⟩
  rw [create_intersection_list_characterization f d, List.length_map,
    ← List.countP_eq_length_filter]

/-- C7: the tabular reader returns one record per parsed input row in the
original order with none dropped, each record holding exactly the requested
columns in the requested order; a requested column absent from the source
reads as the null marker in every row, and every missing cell is normalized
to the stringified null marker. -/
theorem C7_reader_projection (out : List String) (t : ParsedTable) :
    (readWithHeaders out t).length = t.rows.length
    ∧ (∀ i : Nat, (readWithHeaders out t)[i]?
        = (t.rows[i]?).map (fun row => out.map
            (fun h => normalizeCell (reindexCell t.headers row h))))
    ∧ (∀ r ∈ readWithHeaders out t, r.length = out.length)
    ∧ (∀ h : String, h ∉ t.headers → ∀ row : List (Option String),
        normalizeCell (reindexCell t.headers row h) = "nan")
    ∧ (∀ (row : List (Option String)) (h : String),
        reindexCell t.headers row h = none →
          normalizeCell (reindexCell t.headers row h) = "nan") := by
  refine ⟨List.length_map _ _, ?_, ?_, ?_, ?_⟩
  · intro i
    exact List.getElem?_map _ t.rows i
  · intro r hr
    rcases List.mem_map.mp hr with ⟨row, _, rfl⟩
    exact List.length_map _ _
  · intro h hnm row
    rw [reindexCell_not_mem t.headers row h hnm]
    rfl
  · intro row h hnone
    rw [hnone]
    rfl

/-- C8 counterexample: writing the table `[("", 1)]` as the left block and
re-reading it recovers `("nan", "1")`, not the written `("", "1")` pair: the
empty key is NA-detected by the pandas re-read and stringified to `"nan"`. -/
theorem C8_round_trip_counterexample :
    extractLeftBlock (write_preliminary_data_processing_results [("", 1)] [])
        "fileFormat value" "fileFormat count" = [("nan", "1")]
    ∧ (("nan", "1") : String × String) ≠ ("", "1") := by
  decide

/-- C8 (amended): for a frequency table whose keys all survive the write /
NA-detect / stringify round trip (every key either is not a pandas NA marker
or is already `"nan"`; the empty string is an NA marker), re-reading the
left block of the written report recovers, in its FIRST `|table|` rows, the
written keys paired with the decimal renderings of the written counts in
order; rows beyond those come from the right-block ranking. -/
theorem C8_left_block_round_trip (fst snd : List (String × Nat))
    (h : ∀ p ∈ fst, normalizeCell (parseCell p.1) = p.1) :
    (extractLeftBlock (write_preliminary_data_processing_results fst snd)
        "fileFormat value" "fileFormat count").take fst.length
      = fst.map (fun p => (p.1, toString p.2)) :=
  extract_write_preliminary fst snd h

/-- C8 witness: a concrete round trip through the written report. -/
theorem C8_round_trip_witness :
    (extractLeftBlock (write_preliminary_data_processing_results [("csv", 2)] [(".x", 1)])
        "fileFormat value" "fileFormat count").take 1 = [("csv", "2")] :=
  C8_left_block_round_trip [("csv", 2)] [(".x", 1)] (by decide)

/-- C9: the readers' in-memory null marker is the literal string `"nan"`
(`str(nan)`), a nonempty ordinary key for every rollup (a row with a missing
study cell puts `"nan"` among the study-rollup keys), and since the writers
substitute `"[NULL]"` only for keys of length zero, a `"nan"` key is written
out verbatim — never as `"[NULL]"` and never as a blank field. -/
theorem C9_nan_marker :
    normalizeCell none = "nan"
    ∧ ("nan" ≠ "" ∧ "nan" ≠ "[NULL]")
    ∧ (∀ t : ParsedTable, ∀ row ∈ t.rows, reindexCell t.headers row "study" = none →
        "nan" ∈ (download_count_by_study (read_download_info_csv_with_pandas t)).map Prod.fst)
    ∧ (∀ fst snd : List (String × Nat),
        (colAt (write_study_info_to_csv_file fst snd) 4).drop fst.length
          = snd.map (fun p => if p.1 = "" then "[NULL]" else p.1)
        ∧ (colAt (write_study_info_to_csv_file fst snd) 0).take fst.length
          = fst.map Prod.fst
        ∧ ∀ k : String, k = "nan" → (if k = "" then "[NULL]" else k) = k) := by
  refine ⟨rfl, ⟨by decide, by decide⟩, ?_, ?_⟩
  · intro t row hmem hnone
    show "nan" ∈ (sortDesc (tally ((readWithHeaders ["id", "name", "study"] t).map
      (fun r => r.getD 2 "")))).map Prod.fst
    rw [sortDesc_keys_mem, tally_keys_mem]
    refine List.mem_map.mpr ⟨["id", "name", "study"].map
      (fun hh => normalizeCell (reindexCell t.headers row hh)), ?_, ?_⟩
    · exact List.mem_map_of_mem _ hmem
    · show normalizeCell (reindexCell t.headers row "study") = "nan"
      rw [hnone]
      rfl
  · intro fst snd
    refine ⟨(write_study_cols fst snd).1, (write_study_cols fst snd).2, ?_⟩
    intro k hk
    subst hk
    rfl

/-- C10: two runs of the pipeline agree on all three report files whatever
iteration order the id-intersection set's enumeration takes, because the
enumeration is used only for membership tests: any two enumerations with the
members of the file-id/download-id intersection yield identical reports. -/
theorem C10_pipeline_determinism (ft dt : ParsedTable) (e1 e2 : List String)
    (h1 : ∀ x, x ∈ e1 ↔ x ∈ fileIds (read_file_info_csv_with_pandas ft)
        ∧ x ∈ downloadIds (read_download_info_csv_with_pandas dt))
    (h2 : ∀ x, x ∈ e2 ↔ x ∈ fileIds (read_file_info_csv_with_pandas ft)
        ∧ x ∈ downloadIds (read_download_info_csv_with_pandas dt)) :
    pipelineReports e1 ft dt = pipelineReports e2 ft dt := by
  have he : create_intersection_list_ordered e1 (read_file_info_csv_with_pandas ft)
      = create_intersection_list_ordered e2 (read_file_info_csv_with_pandas ft) :=
    create_intersection_list_ordered_congr e1 e2 _ (fun x => (h1 x).trans (h2 x).symm)
  unfold pipelineReports
  rw [he]

/-- C10 witness: two enumerations of the same one-element intersection. -/
theorem C10_determinism_witness :
    pipelineReports ["A"]
        ⟨["fileFormat", "name", "id", "study"], [[some "csv", some "a.csv", some "A", some "s"]]⟩
        ⟨["id", "name", "study"], [[some "A", some "a.csv", some "s"]]⟩
      = pipelineReports ["A", "A"]
        ⟨["fileFormat", "name", "id", "study"], [[some "csv", some "a.csv", some "A", some "s"]]⟩
        ⟨["id", "name", "study"], [[some "A", some "a.csv", some "s"]]⟩ := by
  refine C10_pipeline_determinism _ _ ["A"] ["A", "A"] ?_ ?_
  · intro x
    show x ∈ ["A"] ↔ x ∈ ["A"] ∧ x ∈ ["A"]
    exact ⟨fun hx => ⟨hx, hx⟩, And.left⟩
  · intro x
    show x ∈ ["A", "A"] ↔ x ∈ ["A"] ∧ x ∈ ["A"]
    constructor
    · intro hx
      rcases List.mem_cons.mp hx with rfl | hx2
      · exact ⟨List.mem_singleton_self _, List.mem_singleton_self _⟩
      · simp only [List.mem_singleton] at hx2
        subst hx2
        exact ⟨List.mem_singleton_self _, List.mem_singleton_self _⟩
    · intro hx
      have hxa : x = "A" := by simpa using hx.1
      subst hxa
      exact List.mem_cons_self _ _
